import Mathlib

/-!
Verification of the linkly_backend core: the cache-aside link resolver
(src/controllers/redirect.controller.js, handleRedirect), the analysis worker
(the bullmq worker in the repository), the system-collection auto-filing
service (src/services/systemCollectionService.js), the bidirectional
membership update (updateLinkCollections), and the AI analysis engine
(the chunking aiService with generateContentWithRetry).

The embedding is shallow: mongoose documents become Lean structures, the
Mongo/Redis stores become association lists inside an explicit state record,
and the external text-analysis capability becomes an oracle (a function from
the call index to an outcome) threaded through the analysis functions.
-/

namespace Linkly

/-- Analysis status enum of the Link mongoose schema
(PENDING | COMPLETED | FAILED, default PENDING). -/
inductive AnalysisStatus
  | pending
  | completed
  | failed
deriving DecidableEq, Repr

/-- Classification subdocument of the Link schema and of the parsed
classification JSON: category, confidence, reason. -/
structure Classification where
  category : String
  confidence : Rat
  reason : String
deriving DecidableEq, Repr

/-- Link document (src/models/Link.js). The field id stands for the Mongo
_id, shortId is the unique short code. aiSafetyRating defaults to null in
the schema, hence Option Int. -/
structure Link where
  id : String
  shortId : String
  longUrl : String
  owner : String
  viewerCount : Int
  aiSummary : Option String
  aiTags : List String
  aiSafetyRating : Option Int
  aiSafetyJustification : Option String
  aiClassification : Classification
  analysisStatus : AnalysisStatus
  collections : List String
deriving DecidableEq, Repr

/-- Collection document (src/models/Collection.js, extended schema): owner,
member link ids, system-collection flags. -/
structure Collection where
  id : String
  name : String
  owner : String
  links : List String
  isSystem : Bool
  systemCategory : Option String
deriving DecidableEq, Repr

/-- Combined persistent state: the Link store, the Redis cache (key to the
cached link projection, the code caches the whole link object as JSON), and
the Collection store. -/
structure DbState where
  db : List Link
  cache : List (String × Link)
  colls : List Collection
deriving DecidableEq, Repr

/-- Redis GET on the association-list cache. -/
def cacheGet (cache : List (String × Link)) (key : String) : Option Link :=
  (cache.find? (fun p => p.1 == key)).map Prod.snd

/-- Redis SET (with EX 3600 in the code; the TTL itself is not modelled,
only the presence of the entry). -/
def cacheSet (cache : List (String × Link)) (key : String) (v : Link) :
    List (String × Link) :=
  (key, v) :: cache.filter (fun p => p.1 != key)

/-- Link.findOne by shortId. -/
def dbFindByShortId (db : List Link) (webId : String) : Option Link :=
  db.find? (fun l => l.shortId == webId)

/-- Link.findById. -/
def dbFindById (db : List Link) (linkId : String) : Option Link :=
  db.find? (fun l => l.id == linkId)

/-- Document save replacing the record with the given shortId. -/
def dbSaveByShortId (db : List Link) (webId : String) (v : Link) : List Link :=
  db.map (fun l => if l.shortId == webId then v else l)

/-- Document save replacing the record with the given id. -/
def dbSaveById (db : List Link) (linkId : String) (v : Link) : List Link :=
  db.map (fun l => if l.id == linkId then v else l)

/-- Atomic storage-layer increment:
Link.updateOne with a dollar-inc on viewerCount. -/
def dbAtomicInc (db : List Link) (webId : String) : List Link :=
  db.map (fun l =>
    if l.shortId == webId then { l with viewerCount := l.viewerCount + 1 } else l)

/-- JavaScript comparison x less-than n where x may be null: null coerces
to 0, so null less-than 3 evaluates to true. A present number compares
numerically. This is the comparison used on linkData.aiSafetyRating. -/
def jsLtNull (r : Option Int) (n : Int) : Bool :=
  match r with
  | none => decide ((0 : Int) < n)
  | some v => decide (v < n)

/-- Result of the public Resolve boundary: a warning redirect carrying the
destination and the stored justification, a direct 302 redirect, or a 404. -/
inductive RedirectResult
  | warning (destination : String) (justification : Option String)
  | direct (destination : String)
  | notFound
deriving DecidableEq, Repr

/-- Safety gate of handleRedirect (redirect.controller.js, step 4): if
analysisStatus is COMPLETED and aiSafetyRating is below 3 (JS comparison),
redirect to the warning page with destination and reason; otherwise redirect
302 to the destination. -/
def safetyGate (d : Link) : RedirectResult :=
  if d.analysisStatus == AnalysisStatus.completed && jsLtNull d.aiSafetyRating 3 then
    RedirectResult.warning d.longUrl d.aiSafetyJustification
  else
    RedirectResult.direct d.longUrl

/-- Operation handleRedirect (redirect.controller.js): cache-aside read.
On a cache hit the cached projection is used and the hit counter is
incremented fire-and-forget through the atomic dollar-inc; on a miss the
link is loaded, the counter incremented caller-side (plus-equals then save),
the fresh object cached, and the safety gate evaluated on the served data. -/
def handleRedirect (st : DbState) (webId : String) : RedirectResult × DbState :=
  let cacheKey := "link:" ++ webId
  match cacheGet st.cache cacheKey with
  | some linkData =>
      (safetyGate linkData, { st with db := dbAtomicInc st.db webId })
  | none =>
      match dbFindByShortId st.db webId with
      | none => (RedirectResult.notFound, st)
      | some link =>
          let incremented := { link with viewerCount := link.viewerCount + 1 }
          let db1 := dbSaveByShortId st.db webId incremented
          let cache1 := cacheSet st.cache cacheKey incremented
          (safetyGate incremented, { st with db := db1, cache := cache1 })

/-- Link data actually served by a resolution: the cached projection on a
hit, the freshly incremented document on a miss, none when the code does
not exist. -/
def servedData (st : DbState) (webId : String) : Option Link :=
  match cacheGet st.cache ("link:" ++ webId) with
  | some linkData => some linkData
  | none =>
      (dbFindByShortId st.db webId).map
        (fun link => { link with viewerCount := link.viewerCount + 1 })

/-- Characterisation lemma: the result of handleRedirect is the safety gate
applied to the served data (or NotFound). -/
theorem handleRedirect_fst_eq (st : DbState) (webId : String) :
    (handleRedirect st webId).1 =
      match servedData st webId with
      | none => RedirectResult.notFound
      | some d => safetyGate d := by
  unfold handleRedirect servedData
  cases hc : cacheGet st.cache ("link:" ++ webId) with
  | some linkData => simp only [hc]
  | none =>
      cases hf : dbFindByShortId st.db webId with
      | none => simp only [hc, hf]; rfl
      | some link => simp only [hc, hf]; rfl

/-- Helper: the safety gate warns exactly when the status is COMPLETED and
the JS comparison rating-below-3 holds. -/
theorem safetyGate_eq_warning_iff (d : Link) :
    safetyGate d = RedirectResult.warning d.longUrl d.aiSafetyJustification ↔
      (d.analysisStatus = AnalysisStatus.completed ∧ jsLtNull d.aiSafetyRating 3 = true) := by
  unfold safetyGate
  by_cases h1 : d.analysisStatus = AnalysisStatus.completed
  · by_cases h2 : jsLtNull d.aiSafetyRating 3 = true
    · simp [h1, h2]
    · simp [h1, h2]
  · simp [h1]

/-- Helper: otherwise the gate yields a direct redirect. -/
theorem safetyGate_eq_direct (d : Link)
    (h : ¬ (d.analysisStatus = AnalysisStatus.completed ∧ jsLtNull d.aiSafetyRating 3 = true)) :
    safetyGate d = RedirectResult.direct d.longUrl := by
  unfold safetyGate
  rcases Decidable.not_and_iff_or_not.mp h with h1 | h2
  · simp [h1]
  · by_cases h1 : d.analysisStatus = AnalysisStatus.completed
    · simp [h1, h2]
    · simp [h1]

/-- C1: for every resolution of an existing short code (cache hit or miss),
if the analysis status is COMPLETED and the stored safety rating is a value
below 3, Resolve returns a Warning carrying the real destination and the
stored justification; when the status is not COMPLETED, or the stored
rating is at least 3, it returns a Direct result with the destination. -/
theorem resolve_safety_gate_C1 (st : DbState) (webId : String) (d : Link)
    (hserved : servedData st webId = some d) :
    (d.analysisStatus = AnalysisStatus.completed →
      ∀ r : Int, d.aiSafetyRating = some r → r < 3 →
        (handleRedirect st webId).1 =
          RedirectResult.warning d.longUrl d.aiSafetyJustification)
    ∧ (d.analysisStatus ≠ AnalysisStatus.completed →
        (handleRedirect st webId).1 = RedirectResult.direct d.longUrl)
    ∧ (∀ r : Int, d.aiSafetyRating = some r → 3 ≤ r →
        (handleRedirect st webId).1 = RedirectResult.direct d.longUrl) := by
  have hres : (handleRedirect st webId).1 = safetyGate d := by
    rw [handleRedirect_fst_eq, hserved]
  refine ⟨?_, ?_, ?_⟩
  · intro hstat r hr hlt
    rw [hres, safetyGate_eq_warning_iff]
    exact ⟨hstat, by simp [jsLtNull, hr, hlt]⟩
  · intro hstat
    rw [hres, safetyGate_eq_direct]
    intro hand
    exact hstat hand.1
  · intro r hr hge
    rw [hres, safetyGate_eq_direct]
    intro hand
    have : jsLtNull d.aiSafetyRating 3 = false := by
      simp [jsLtNull, hr]
      omega
    rw [hand.2] at this
    exact absurd this (by simp)

/-- Sample unsafe link used in concrete runs: COMPLETED with rating 2. -/
def sampleUnsafeLink : Link :=
  { id := "l1", shortId := "abc", longUrl := "http://example.com", owner := "u1",
    viewerCount := 0, aiSummary := none, aiTags := [],
    aiSafetyRating := some 2,
    aiSafetyJustification := some "phishing indicators",
    aiClassification := { category := "Other", confidence := 0, reason := "n" },
    analysisStatus := AnalysisStatus.completed, collections := [] }

/-- Witness for C1: on a concrete state holding the unsafe sample link,
Resolve returns the Warning carrying its destination and justification. -/
theorem resolve_safety_gate_C1_witness :
    (handleRedirect { db := [sampleUnsafeLink], cache := [], colls := [] } "abc").1 =
      RedirectResult.warning "http://example.com" (some "phishing indicators") :=
  (resolve_safety_gate_C1 { db := [sampleUnsafeLink], cache := [], colls := [] } "abc"
      { sampleUnsafeLink with viewerCount := 1 } (by decide)).1
    (by decide) 2 (by decide) (by decide)

/-- Sample COMPLETED link whose safety rating is still the model default
null: served from the cache in the C10 witness. -/
def sampleNullRatingLink : Link :=
  { id := "l2", shortId := "xyz", longUrl := "http://example.org", owner := "u1",
    viewerCount := 5, aiSummary := none, aiTags := [],
    aiSafetyRating := none,
    aiSafetyJustification := none,
    aiClassification := { category := "Other", confidence := 0, reason := "n" },
    analysisStatus := AnalysisStatus.completed, collections := [] }

/-- C10: a COMPLETED link with an absent (null) safety rating is gated to
the Warning result, because the JavaScript comparison null-below-3
evaluates to true; an absent rating on a COMPLETED link counts as unsafe
at the Resolve boundary. -/
theorem resolve_null_rating_warns_C10 (st : DbState) (webId : String) (d : Link)
    (hserved : servedData st webId = some d)
    (hstat : d.analysisStatus = AnalysisStatus.completed)
    (hrating : d.aiSafetyRating = none) :
    jsLtNull d.aiSafetyRating 3 = true ∧
      (handleRedirect st webId).1 =
        RedirectResult.warning d.longUrl d.aiSafetyJustification := by
  have hlt : jsLtNull d.aiSafetyRating 3 = true := by simp [jsLtNull, hrating]
  refine ⟨hlt, ?_⟩
  rw [handleRedirect_fst_eq, hserved]
  rw [safetyGate_eq_warning_iff]
  exact ⟨hstat, hlt⟩

/-- Witness for C10: a concrete cache-hit resolution of a COMPLETED link
with null rating yields the Warning result. -/
theorem resolve_null_rating_warns_C10_witness :
    (handleRedirect
        { db := [sampleNullRatingLink], cache := [("link:xyz", sampleNullRatingLink)],
          colls := [] } "xyz").1 =
      RedirectResult.warning "http://example.org" none :=
  (resolve_null_rating_warns_C10
      { db := [sampleNullRatingLink], cache := [("link:xyz", sampleNullRatingLink)],
        colls := [] } "xyz" sampleNullRatingLink (by decide) (by decide) (by decide)).2

/-- Storage-level operations a Resolve call performs on viewerCount.
The cache-hit path issues one atomic dollar-inc
(Link.updateOne in redirect.controller.js, the fire-and-forget branch);
the cache-miss path loads the document (Link.findOne), adds one to the
loaded value, and saves the whole document (viewerCount plus-equals one,
then link.save()). -/
inductive CounterOp
  | readCount
  | saveLocalPlusOne
  | atomicInc
deriving DecidableEq, Repr

/-- Counter access sequence of the cache-miss (cold cache) branch of
handleRedirect: a caller-side read-modify-write. -/
def missPathCounterOps : List CounterOp :=
  [CounterOp.readCount, CounterOp.saveLocalPlusOne]

/-- Counter access sequence of the cache-hit branch of handleRedirect:
one atomic storage-layer fetch-add. -/
def hitPathCounterOps : List CounterOp :=
  [CounterOp.atomicInc]

/-- One concurrent caller of Resolve, as seen by the counter field: its
remaining storage operations and the value it last loaded. -/
structure CounterThread where
  prog : List CounterOp
  localVal : Int
deriving DecidableEq, Repr

/-- Effect of one storage operation on (committed counter, loaded value). -/
def stepCounterOp (counter localVal : Int) : CounterOp → Int × Int
  | CounterOp.readCount => (counter, counter)
  | CounterOp.saveLocalPlusOne => (localVal + 1, localVal)
  | CounterOp.atomicInc => (counter + 1, localVal)

/-- Interleaved execution: the schedule names, step by step, which thread
executes its next storage operation (steps naming a finished or absent
thread are skipped). -/
def runCounterSched : List Nat → Int → List CounterThread → Int × List CounterThread
  | [], c, ts => (c, ts)
  | i :: rest, c, ts =>
    match ts[i]? with
    | none => runCounterSched rest c ts
    | some t =>
      match t.prog with
      | [] => runCounterSched rest c ts
      | op :: ops =>
        runCounterSched rest (stepCounterOp c t.localVal op).1
          (ts.set i { prog := ops, localVal := (stepCounterOp c t.localVal op).2 })

/-- Total number of storage operations still to execute. -/
def remainingOps (ts : List CounterThread) : Nat :=
  (ts.map (fun t => t.prog.length)).sum

/-- Helper: replacing thread i changes the remaining-operation count by
exactly the difference of the two programs. -/
theorem remainingOps_set (ts : List CounterThread) (i : Nat) (t t2 : CounterThread)
    (h : ts[i]? = some t) :
    remainingOps (ts.set i t2) + t.prog.length = remainingOps ts + t2.prog.length := by
  induction ts generalizing i with
  | nil => simp at h
  | cons hd tl ih =>
    cases i with
    | zero =>
        simp only [List.getElem?_cons_zero, Option.some.injEq] at h
        subst h
        simp [remainingOps]
        omega
    | succ n =>
        simp only [List.getElem?_cons_succ] at h
        have := ih n h
        simp only [List.set_cons_succ, remainingOps, List.map_cons, List.sum_cons]
        simp only [remainingOps] at this
        omega

/-- Invariant of atomic increments: as long as every pending operation is
an atomic fetch-add, the committed counter plus the remaining operation
count is preserved by any interleaving, and the threads stay atomic. -/
theorem runCounterSched_atomic_invariant (sched : List Nat) :
    ∀ (c : Int) (ts : List CounterThread),
      (∀ t ∈ ts, ∀ op ∈ t.prog, op = CounterOp.atomicInc) →
      (runCounterSched sched c ts).1 + (remainingOps (runCounterSched sched c ts).2 : Int) =
          c + (remainingOps ts : Int) ∧
        (∀ t ∈ (runCounterSched sched c ts).2, ∀ op ∈ t.prog, op = CounterOp.atomicInc) := by
  induction sched with
  | nil =>
      intro c ts h
      exact ⟨rfl, h⟩
  | cons i rest ih =>
      intro c ts h
      cases hi : ts[i]? with
      | none =>
          simpa only [runCounterSched, hi] using ih c ts h
      | some t =>
          cases hp : t.prog with
          | nil =>
              simpa only [runCounterSched, hi, hp] using ih c ts h
          | cons op ops =>
              have hmem : t ∈ ts := List.getElem?_mem hi
              have hop : op = CounterOp.atomicInc :=
                h t hmem op (by rw [hp]; exact List.mem_cons_self op ops)
              subst hop
              have hall2 : ∀ t2 ∈ ts.set i { prog := ops, localVal := t.localVal },
                  ∀ op2 ∈ t2.prog, op2 = CounterOp.atomicInc := by
                intro t2 ht2 op2 hop2
                rcases List.mem_or_eq_of_mem_set ht2 with h1 | h1
                · exact h t2 h1 op2 hop2
                · subst h1
                  exact h t hmem op2 (by rw [hp]; exact List.mem_cons_of_mem _ hop2)
              have hrec := ih (c + 1) (ts.set i { prog := ops, localVal := t.localVal }) hall2
              have hrem := remainingOps_set ts i t { prog := ops, localVal := t.localVal } hi
              rw [hp] at hrem
              simp only [List.length_cons] at hrem
              constructor
              · have heq : runCounterSched (i :: rest) c ts =
                    runCounterSched rest (c + 1)
                      (ts.set i { prog := ops, localVal := t.localVal }) := by
                  simp only [runCounterSched, hi, hp, stepCounterOp]
                rw [heq]
                rw [hrec.1]
                omega
              · have heq : runCounterSched (i :: rest) c ts =
                    runCounterSched rest (c + 1)
                      (ts.set i { prog := ops, localVal := t.localVal }) := by
                  simp only [runCounterSched, hi, hp, stepCounterOp]
                rw [heq]
                exact hrec.2

/-- C3 corrected: the atomic part of the claim holds only for the cache-hit
path. Every completed interleaving of hit-path (atomic dollar-inc) callers
adds exactly the number of executed increments; the cache-miss path is a
caller-side read-modify-write, and interleaving two cold-cache Resolve
calls as read-read-save-save loses one update: the final counter is 1. -/
theorem resolve_counter_atomic_hit_rmw_miss_C3 :
    (∀ (sched : List Nat) (c0 : Int) (ts : List CounterThread),
        (∀ t ∈ ts, ∀ op ∈ t.prog, op = CounterOp.atomicInc) →
        remainingOps (runCounterSched sched c0 ts).2 = 0 →
        (runCounterSched sched c0 ts).1 = c0 + (remainingOps ts : Int))
    ∧ (runCounterSched [0, 1, 0, 1] 0
        [{ prog := missPathCounterOps, localVal := 0 },
         { prog := missPathCounterOps, localVal := 0 }]).1 = 1 := by
  constructor
  · intro sched c0 ts hall hdone
    have := (runCounterSched_atomic_invariant sched c0 ts hall).1
    rw [hdone] at this
    simpa using this
  · decide

/-- Witness for the corrected C3: two concurrent cache-hit increments from
counter 0, interleaved one after the other, end at exactly 2. -/
theorem resolve_counter_atomic_hit_rmw_miss_C3_witness :
    (runCounterSched [0, 1] 0
        [{ prog := hitPathCounterOps, localVal := 0 },
         { prog := hitPathCounterOps, localVal := 0 }]).1 = 2 := by
  have h := resolve_counter_atomic_hit_rmw_miss_C3.1 [0, 1] 0
      [{ prog := hitPathCounterOps, localVal := 0 },
       { prog := hitPathCounterOps, localVal := 0 }]
      (by decide) (by decide)
  rw [h]
  decide

/-- Counterexample to C3 as stated: with a cold cache, two concurrent
Resolve calls both take the miss path, whose counter update is the
read-modify-write of handleRedirect (findOne, plus-equals one, save). The
interleaving read-read-save-save runs both calls to completion but ends
with counter 1, not 2: an update is lost, refuting final counter equals N
for N concurrent calls on a cold cache. -/
theorem resolve_counter_lost_update_C3_counterexample :
    (runCounterSched [0, 1, 0, 1] 0
        [{ prog := missPathCounterOps, localVal := 0 },
         { prog := missPathCounterOps, localVal := 0 }]).1 = 1 ∧
    remainingOps (runCounterSched [0, 1, 0, 1] 0
        [{ prog := missPathCounterOps, localVal := 0 },
         { prog := missPathCounterOps, localVal := 0 }]).2 = 0 ∧
    (1 : Int) ≠ 2 := by
  decide

/-- Parsed safety object the worker reads from the analysis result
(analysisResult.safety.safety_rating and analysisResult.safety.explanation). -/
structure SafetyResponse where
  safety_rating : Option Int
  explanation : Option String
deriving DecidableEq, Repr

/-- Shape of the analysis result consumed by the worker
(summary, tags, safety, classification). -/
structure AnalysisResultDoc where
  summary : String
  tags : List String
  safety : SafetyResponse
  classification : Classification
deriving DecidableEq, Repr

/-- Collection document save replacing the record with the given id. -/
def collSaveById (colls : List Collection) (cid : String) (v : Collection) :
    List Collection :=
  colls.map (fun c => if c.id == cid then v else c)

/-- Operation getSystemCollectionByCategory
(systemCollectionService.js): Collection.findOne on owner, isSystem true and
systemCategory equal to the category. -/
def getSystemCollectionByCategory (colls : List Collection)
    (userId category : String) : Option Collection :=
  colls.find? (fun c => c.owner == userId && c.isSystem && c.systemCategory == some category)

/-- Operation assignLinkToSystemCollection (systemCollectionService.js):
locate the owner system collection for the category; if found and the link
is not already in its links array, push the link id and save. Nothing else
is written: in particular the collections field of the Link document is
never touched here. -/
def assignLinkToSystemCollection (colls : List Collection)
    (userId linkId : String) (aiClassification : Classification) :
    List Collection :=
  match getSystemCollectionByCategory colls userId aiClassification.category with
  | none => colls
  | some systemCollection =>
      if systemCollection.links.contains linkId then colls
      else
        collSaveById colls systemCollection.id
          { systemCollection with links := systemCollection.links ++ [linkId] }

/-- Catch branch of the worker: Link.findByIdAndUpdate setting
analysisStatus to FAILED (a no-op when the id is absent). -/
def markLinkFailed (db : List Link) (linkId : String) : List Link :=
  db.map (fun l =>
    if l.id == linkId then { l with analysisStatus := AnalysisStatus.failed } else l)

/-- Field writes of the worker success path before link.save():
summary, tags, safety rating, justification, classification, and
analysisStatus COMPLETED. -/
def applyAnalysisToLink (link : Link) (a : AnalysisResultDoc) : Link :=
  { link with
    aiSummary := some a.summary,
    aiTags := a.tags,
    aiSafetyRating := a.safety.safety_rating,
    aiSafetyJustification := a.safety.explanation,
    aiClassification := a.classification,
    analysisStatus := AnalysisStatus.completed }

/-- Body of the bullmq worker for one job (the link-analysis worker file):
load the Link by id (a missing link throws, landing in the catch branch);
run analyzeUrlContent (modelled as an oracle from the long URL to a result
or an exception); on success write the result fields, set COMPLETED, save,
and auto-file into the owner system collection (that call has its own
try/catch, and in this embedding it is total). On any exception of the
load/analyze/save phase the catch branch sets analysisStatus FAILED.
The worker performs no Redis operation, so the cache component is never
modified. The addLinkTagsToUser call touches only the User model inside
its own try/catch and is outside this embedding. -/
def processJob (analyze : String → Except String AnalysisResultDoc)
    (st : DbState) (linkId : String) : DbState :=
  match dbFindById st.db linkId with
  | none => { st with db := markLinkFailed st.db linkId }
  | some link =>
      match analyze link.longUrl with
      | Except.error _ => { st with db := markLinkFailed st.db linkId }
      | Except.ok a =>
          let link2 := applyAnalysisToLink link a
          { st with
            db := dbSaveById st.db linkId link2,
            colls := assignLinkToSystemCollection st.colls link.owner link.id
              a.classification }

/-- Job handler the worker registers with bullmq: the entire body sits in
a try/catch that never rethrows, so the returned promise always resolves
(first component none) and the state effects are those of processJob. -/
def workerJobHandler (analyze : String → Except String AnalysisResultDoc)
    (linkId : String) : DbState → Option String × DbState :=
  fun st => (none, processJob analyze st linkId)

/-- Queue retry bound from src/jobs/queue.js (defaultJobOptions.attempts). -/
def analysisQueueAttempts : Nat := 3

/-- Queue backoff base delay in milliseconds from src/jobs/queue.js
(defaultJobOptions.backoff.delay, type exponential). -/
def analysisQueueBackoffDelayMs : Nat := 5000

/-- Exponential backoff of the queue: base delay doubling per redelivery. -/
def backoffDelayMs (attemptsMade : Nat) : Nat :=
  analysisQueueBackoffDelayMs * 2 ^ (attemptsMade - 1)

/-- Terminal outcome of a queued job. -/
inductive JobOutcome
  | completedJob
  | failedTerminal
deriving DecidableEq, Repr

/-- At-least-once delivery loop of the queue: run the handler; a resolving
handler completes the job after that one delivery, a rejecting handler is
redelivered until the attempt bound is exhausted, after which the job is
terminally failed. The third component counts deliveries performed. -/
def runWithRetries (h : DbState → Option String × DbState) :
    Nat → DbState → JobOutcome × DbState × Nat
  | 0, st => (JobOutcome.failedTerminal, st, 0)
  | n + 1, st =>
      match h st with
      | (none, st2) => (JobOutcome.completedJob, st2, 1)
      | (some _, st2) =>
          let r := runWithRetries h n st2
          (r.1, r.2.1, r.2.2 + 1)

/-- Helper: looking up a link id after the FAILED mark finds the same
document with analysisStatus FAILED. -/
theorem dbFindById_markLinkFailed (db : List Link) (linkId : String) (l : Link)
    (hfind : dbFindById db linkId = some l) :
    dbFindById (markLinkFailed db linkId) linkId =
      some { l with analysisStatus := AnalysisStatus.failed } := by
  induction db with
  | nil => simp [dbFindById] at hfind
  | cons hd tl ih =>
      by_cases hhd : hd.id == linkId
      · have hl : hd = l := by
          simp [dbFindById, List.find?, hhd] at hfind
          exact hfind
        subst hl
        simp [dbFindById, markLinkFailed, List.find?, hhd]
      · have hfind2 : dbFindById tl linkId = some l := by
          simpa [dbFindById, List.find?, hhd] using hfind
        have := ih hfind2
        simpa [dbFindById, markLinkFailed, List.find?, hhd] using this

/-- Helper: looking up a link id after a save of a document carrying that
id finds the saved document. -/
theorem dbFindById_dbSaveById (db : List Link) (linkId : String) (v : Link)
    (hv : v.id = linkId) (l : Link) (hfind : dbFindById db linkId = some l) :
    dbFindById (dbSaveById db linkId v) linkId = some v := by
  induction db with
  | nil => simp [dbFindById] at hfind
  | cons hd tl ih =>
      by_cases hhd : hd.id == linkId
      · simp [dbFindById, dbSaveById, List.find?, hhd, hv]
      · have hfind2 : dbFindById tl linkId = some l := by
          simpa [dbFindById, List.find?, hhd] using hfind
        have := ih hfind2
        simpa [dbFindById, dbSaveById, List.find?, hhd] using this

/-- Helper: a successful id lookup returns a document with that id. -/
theorem dbFindById_id (db : List Link) (linkId : String) (l : Link)
    (h : dbFindById db linkId = some l) : l.id = linkId := by
  have hp := List.find?_some h
  simpa using hp

/-- C2 amended: the worker writes the analysis fields and sets COMPLETED,
but performs no cache operation at all: the cache after a job equals the
cache before, so the stale entry for the short code survives until its
one-hour TTL expires. Explicit deletion of cache entries happens only in
the deleteUrl, editShortUrl and editLongUrl controllers, not in the
worker. -/
theorem worker_no_cache_invalidation_C2
    (analyze : String → Except String AnalysisResultDoc) (st : DbState)
    (linkId : String) :
    (processJob analyze st linkId).cache = st.cache := by
  unfold processJob
  cases h : dbFindById st.db linkId with
  | none => rfl
  | some link =>
      cases ha : analyze link.longUrl with
      | error e => simp only [ha]
      | ok a => simp only [ha]

/-- Sample PENDING link used in concrete worker runs. -/
def samplePendingLink : Link :=
  { id := "l3", shortId := "code3", longUrl := "http://example.net", owner := "u2",
    viewerCount := 0, aiSummary := none, aiTags := [],
    aiSafetyRating := none, aiSafetyJustification := none,
    aiClassification :=
      { category := "Other", confidence := 0,
        reason := "Analysis has not been completed." },
    analysisStatus := AnalysisStatus.pending, collections := [] }

/-- Sample analysis result as the worker consumes it. -/
def sampleAnalysisDoc : AnalysisResultDoc :=
  { summary := "a summary", tags := ["tag"],
    safety := { safety_rating := some 1, explanation := some "unsafe page" },
    classification := { category := "Other", confidence := 0, reason := "r" } }

/-- Counterexample to C2 as stated: a concrete job run sets the link to
COMPLETED, yet the cache entry keyed by its short code is still present
afterwards: the worker never deletes it. -/
theorem worker_cache_survives_C2_counterexample :
    (dbFindById (processJob (fun _ => Except.ok sampleAnalysisDoc)
        { db := [samplePendingLink],
          cache := [("link:code3", samplePendingLink)], colls := [] }
        "l3").db "l3").map Link.analysisStatus = some AnalysisStatus.completed ∧
    cacheGet (processJob (fun _ => Except.ok sampleAnalysisDoc)
        { db := [samplePendingLink],
          cache := [("link:code3", samplePendingLink)], colls := [] }
        "l3").cache "link:code3" = some samplePendingLink := by
  decide

/-- C4 amended: auto-filing adds the link id to the member set of the
matching owner system collection only when it is not already a member (and
leaves the store unchanged when it is), but it updates only the collection
side of the relation: a successful worker run never changes the
collections field of the Link document, so the symmetric membership
invariant is not maintained by auto-filing. -/
theorem autofile_member_only_C4 :
    (∀ (colls : List Collection) (userId linkId : String) (cls : Classification)
        (c : Collection),
        getSystemCollectionByCategory colls userId cls.category = some c →
        (c.links.contains linkId = true →
          assignLinkToSystemCollection colls userId linkId cls = colls) ∧
        (c.links.contains linkId = false →
          assignLinkToSystemCollection colls userId linkId cls =
            collSaveById colls c.id { c with links := c.links ++ [linkId] }))
    ∧ (∀ (analyze : String → Except String AnalysisResultDoc) (st : DbState)
        (linkId : String) (link : Link) (a : AnalysisResultDoc),
        dbFindById st.db linkId = some link →
        analyze link.longUrl = Except.ok a →
        (dbFindById (processJob analyze st linkId).db linkId).map Link.collections =
          some link.collections) := by
  constructor
  · intro colls userId linkId cls c hfindc
    have hred : assignLinkToSystemCollection colls userId linkId cls =
        if c.links.contains linkId = true then colls
        else collSaveById colls c.id { c with links := c.links ++ [linkId] } := by
      unfold assignLinkToSystemCollection
      rw [hfindc]
    constructor
    · intro hmem
      rw [hred, if_pos hmem]
    · intro hmem
      have hc : ¬ (c.links.contains linkId = true) := by rw [hmem]; simp
      rw [hred, if_neg hc]
  · intro analyze st linkId link a hfind hok
    have hid : link.id = linkId := dbFindById_id st.db linkId link hfind
    have hsave := dbFindById_dbSaveById st.db linkId (applyAnalysisToLink link a)
      (by simpa [applyAnalysisToLink] using hid) link hfind
    simp only [processJob, hfind, hok]
    rw [hsave]
    simp [applyAnalysisToLink]

/-- Sample owner system collection for the category Other. -/
def sampleSystemCollection : Collection :=
  { id := "c1", name := "Other", owner := "u2", links := [], isSystem := true,
    systemCategory := some "Other" }

/-- Witness for the corrected C4: filing a fresh link into the concrete
system collection appends its id to the member array. -/
theorem autofile_member_only_C4_witness :
    assignLinkToSystemCollection [sampleSystemCollection] "u2" "l3"
        sampleAnalysisDoc.classification =
      collSaveById [sampleSystemCollection] "c1"
        { sampleSystemCollection with links := ["l3"] } :=
  (autofile_member_only_C4.1 [sampleSystemCollection] "u2" "l3"
      sampleAnalysisDoc.classification sampleSystemCollection (by decide)).2
    (by decide)

/-- Counterexample to C4 as stated: after a concrete successful job, the
system collection member set contains the link id, but the collections
field of the link does not contain the collection id: only one side of the
bidirectional relation was updated. -/
theorem autofile_one_sided_C4_counterexample :
    ((processJob (fun _ => Except.ok sampleAnalysisDoc)
          { db := [samplePendingLink], cache := [],
            colls := [sampleSystemCollection] } "l3").colls.find?
        (fun c => c.id == "c1")).map (fun c => c.links.contains "l3") =
      some true ∧
    (dbFindById (processJob (fun _ => Except.ok sampleAnalysisDoc)
          { db := [samplePendingLink], cache := [],
            colls := [sampleSystemCollection] } "l3").db "l3").map
        (fun l => l.collections.contains "c1") = some false := by
  decide

/-- C9: when the protected phase of a job (load, analyze, save) raises, the
catch branch sets the analysis status of the link to FAILED before the job
ends; because the handler never rethrows, the queue (configured with
attempts 3 and exponential backoff) sees a resolved job: there is exactly
one delivery and no further automatic redelivery, and the link does not
remain PENDING. -/
theorem worker_exception_sets_failed_C9
    (analyze : String → Except String AnalysisResultDoc) (st : DbState)
    (linkId : String) (link : Link) (e : String)
    (hfind : dbFindById st.db linkId = some link)
    (herr : analyze link.longUrl = Except.error e) :
    runWithRetries (workerJobHandler analyze linkId) analysisQueueAttempts st =
      (JobOutcome.completedJob, processJob analyze st linkId, 1) ∧
    dbFindById (processJob analyze st linkId).db linkId =
      some { link with analysisStatus := AnalysisStatus.failed } := by
  constructor
  · rfl
  · simp only [processJob, hfind, herr]
    exact dbFindById_markLinkFailed st.db linkId link hfind

/-- Analyze oracle that always raises, as the aiService does on a fatal
pipeline error. -/
def sampleFailingAnalyze : String → Except String AnalysisResultDoc :=
  fun _ => Except.error "Failed to get a valid response from the AI model."

/-- Witness for C9: a concrete job whose analysis raises leaves the link
FAILED after a single delivery. -/
theorem worker_exception_sets_failed_C9_witness :
    runWithRetries (workerJobHandler sampleFailingAnalyze "l3")
        analysisQueueAttempts
        { db := [samplePendingLink], cache := [], colls := [] } =
      (JobOutcome.completedJob,
        processJob sampleFailingAnalyze
          { db := [samplePendingLink], cache := [], colls := [] } "l3", 1) ∧
    dbFindById (processJob sampleFailingAnalyze
        { db := [samplePendingLink], cache := [], colls := [] } "l3").db "l3" =
      some { samplePendingLink with analysisStatus := AnalysisStatus.failed } :=
  worker_exception_sets_failed_C9 sampleFailingAnalyze
    { db := [samplePendingLink], cache := [], colls := [] } "l3" samplePendingLink
    "Failed to get a valid response from the AI model." (by decide) rfl

/-- HTTP-layer error thrown by the controllers (ApiError). -/
structure ApiErr where
  statusCode : Nat
  message : String
deriving DecidableEq, Repr

/-- First Collection.updateMany of updateLinkCollections: on every
collection whose id is in collectionIds and whose owner matches, addToSet
pushes the link id unless already present. -/
def addToSetStep (userId linkId : String) (collectionIds : List String)
    (c : Collection) : Collection :=
  if collectionIds.contains c.id && c.owner == userId then
    (if c.links.contains linkId then c
     else { c with links := c.links ++ [linkId] })
  else c

/-- Second Collection.updateMany of updateLinkCollections: on every
collection whose id is not in collectionIds, whose owner matches and whose
links contain the link id, pull removes every occurrence of the id. -/
def pullStep (userId linkId : String) (collectionIds : List String)
    (c : Collection) : Collection :=
  if !(collectionIds.contains c.id) && c.owner == userId && c.links.contains linkId then
    { c with links := c.links.filter (fun x => !(x == linkId)) }
  else c

/-- Operation updateLinkCollections (the SetMembership endpoint of the
controller): findOneAndUpdate sets the collections field of the link
matching id and owner (ids are unique, so the single-document update is
modelled as a map over matching documents), then the two updateMany calls
synchronise the collection member arrays. A missing link yields the 404
ApiError and no collection is touched. The Array.isArray guard on the
request body is subsumed by the input type. -/
def updateLinkCollections (db : List Link) (colls : List Collection)
    (userId linkId : String) (collectionIds : List String) :
    Except ApiErr (List Link × List Collection) :=
  match db.find? (fun l => l.id == linkId && l.owner == userId) with
  | none =>
      Except.error { statusCode := 404, message := "Link not found or permission denied." }
  | some _ =>
      Except.ok
        (db.map (fun l =>
            if l.id == linkId && l.owner == userId then
              { l with collections := collectionIds }
            else l),
          (colls.map (addToSetStep userId linkId collectionIds)).map
            (pullStep userId linkId collectionIds))

/-- Helper: per-collection effect of the two updateMany steps. Identity and
owner are preserved; for a collection of the requesting owner the final
member array contains the link id exactly when the collection id is in the
new set; collections of other owners are untouched. -/
theorem stepPair_spec (userId linkId : String) (collectionIds : List String)
    (c : Collection) :
    (pullStep userId linkId collectionIds (addToSetStep userId linkId collectionIds c)).id = c.id ∧
    (pullStep userId linkId collectionIds (addToSetStep userId linkId collectionIds c)).owner = c.owner ∧
    (c.owner = userId →
      (linkId ∈ (pullStep userId linkId collectionIds
          (addToSetStep userId linkId collectionIds c)).links ↔ c.id ∈ collectionIds)) ∧
    (c.owner ≠ userId →
      pullStep userId linkId collectionIds (addToSetStep userId linkId collectionIds c) = c) := by
  by_cases howner : c.owner = userId
  · by_cases hbm : c.id ∈ collectionIds
    · by_cases hcm : linkId ∈ c.links
      · simp [addToSetStep, pullStep, howner, hbm, hcm]
      · simp [addToSetStep, pullStep, howner, hbm, hcm]
    · by_cases hcm : linkId ∈ c.links
      · simp [addToSetStep, pullStep, howner, hbm, hcm]
      · simp [addToSetStep, pullStep, howner, hbm, hcm]
  · simp [addToSetStep, pullStep, howner]

/-- C5: SetMembership replaces the full collections field of the link with
collectionIds and, in the same operation, adds the link to the member set
of every owner collection in the new set not already containing it and
removes it from every owner collection outside the new set; in the final
state an owner collection contains the link exactly when its id is in the
new set, and other owners are untouched. -/
theorem setMembership_bidirectional_C5 (db : List Link) (colls : List Collection)
    (userId linkId : String) (collectionIds : List String) (link : Link)
    (hfind : db.find? (fun l => l.id == linkId && l.owner == userId) = some link) :
    ∃ db2 colls2,
      updateLinkCollections db colls userId linkId collectionIds =
        Except.ok (db2, colls2) ∧
      (∀ l ∈ db2, l.id = linkId → l.owner = userId → l.collections = collectionIds) ∧
      colls2.length = colls.length ∧
      (∀ (i : Nat) (c c2 : Collection), colls[i]? = some c → colls2[i]? = some c2 →
        c2.id = c.id ∧ c2.owner = c.owner ∧
        (c.owner = userId → (linkId ∈ c2.links ↔ c.id ∈ collectionIds)) ∧
        (c.owner ≠ userId → c2 = c)) := by
  refine ⟨db.map (fun l =>
      if l.id == linkId && l.owner == userId then
        { l with collections := collectionIds }
      else l),
    (colls.map (addToSetStep userId linkId collectionIds)).map
      (pullStep userId linkId collectionIds), ?_, ?_, ?_, ?_⟩
  · unfold updateLinkCollections
    rw [hfind]
  · intro l hl hid howner
    rcases List.mem_map.mp hl with ⟨l0, hl0, hmap⟩
    by_cases hcond : l0.id == linkId && l0.owner == userId
    · rw [← hmap]
      simp [hcond]
    · exfalso
      rw [← hmap] at hid howner
      simp [hcond] at hid howner
      simp [hid, howner] at hcond
  · simp
  · intro i c c2 hc hc2
    have hc2e : ((colls.map (addToSetStep userId linkId collectionIds)).map
        (pullStep userId linkId collectionIds))[i]? = some c2 := hc2
    rw [List.getElem?_map, List.getElem?_map, hc, Option.map_some', Option.map_some'] at hc2e
    have hspec := stepPair_spec userId linkId collectionIds c
    have : c2 = pullStep userId linkId collectionIds
        (addToSetStep userId linkId collectionIds c) := by
      injection hc2e with h
      exact h.symm
    rw [this]
    exact hspec

/-- Sample link owned by u5 holding only collection b before the update. -/
def sampleMemberLink : Link :=
  { id := "l5", shortId := "code5", longUrl := "http://example.com/5", owner := "u5",
    viewerCount := 0, aiSummary := none, aiTags := [], aiSafetyRating := none,
    aiSafetyJustification := none,
    aiClassification := { category := "Other", confidence := 0, reason := "n" },
    analysisStatus := AnalysisStatus.pending, collections := ["cb"] }

/-- Two sample user collections of the same owner: ca empty, cb holding
the link. -/
def sampleCollectionA : Collection :=
  { id := "ca", name := "A", owner := "u5", links := [], isSystem := false,
    systemCategory := none }

/-- Companion collection that currently contains the sample link. -/
def sampleCollectionB : Collection :=
  { id := "cb", name := "B", owner := "u5", links := ["l5"], isSystem := false,
    systemCategory := none }

/-- Witness for C5: a concrete SetMembership to the singleton set with ca
adds the link to ca and removes it from cb. -/
theorem setMembership_bidirectional_C5_witness :
    ∃ db2 colls2,
      updateLinkCollections [sampleMemberLink] [sampleCollectionA, sampleCollectionB]
          "u5" "l5" ["ca"] = Except.ok (db2, colls2) ∧
      (∀ l ∈ db2, l.id = "l5" → l.owner = "u5" → l.collections = ["ca"]) ∧
      colls2.length = 2 ∧
      (∀ (i : Nat) (c c2 : Collection),
        [sampleCollectionA, sampleCollectionB][i]? = some c → colls2[i]? = some c2 →
        c2.id = c.id ∧ c2.owner = c.owner ∧
        (c.owner = "u5" → ("l5" ∈ c2.links ↔ c.id ∈ ["ca"])) ∧
        (c.owner ≠ "u5" → c2 = c)) :=
  setMembership_bidirectional_C5 [sampleMemberLink]
    [sampleCollectionA, sampleCollectionB] "u5" "l5" ["ca"] sampleMemberLink
    (by decide)

/-- Outcome of one call to the external text-analysis capability: a text
response, a 429 rate-limit signal optionally carrying a RetryInfo delay in
seconds, or any other failure (auth error and the like). -/
inductive CallOutcome
  | ok (resp : String)
  | rateLimit (retryDelaySec : Option Nat)
  | failOther (msg : String)
deriving DecidableEq, Repr

/-- Structured prompts the aiService builds. String interpolation of the
templates is kept structural: each constructor carries the payload spliced
into the corresponding template. -/
inductive Prompt
  | chunkSummary (snippet : List Char)
  | reduce (combined : String)
  | combined (text : List Char)
  | safety (input : List Char)
  | classify (input : List Char)
deriving DecidableEq, Repr

/-- Observable external events of a run of the engine: a capability call,
a rate-limit wait of the given seconds, or the one-second pacing delay of
the chunk loop. -/
inductive AiEvent
  | call (p : Prompt)
  | wait (seconds : Nat)
  | pace
deriving DecidableEq, Repr

/-- Engine execution state: the oracle mapping the index of a call to its
outcome, the number of calls made so far, and the event trace. -/
structure AiState where
  oracle : Nat → CallOutcome
  calls : Nat
  trace : List AiEvent

/-- Issue one call to the capability (model.generateContent). -/
def doCall (st : AiState) (p : Prompt) : CallOutcome × AiState :=
  (st.oracle st.calls,
   { st with calls := st.calls + 1, trace := st.trace ++ [AiEvent.call p] })

/-- Record the rate-limit wait (setTimeout of delaySeconds). -/
def recordWait (st : AiState) (s : Nat) : AiState :=
  { st with trace := st.trace ++ [AiEvent.wait s] }

/-- Record the one-second pacing delay of the chunk loop. -/
def recordPace (st : AiState) : AiState :=
  { st with trace := st.trace ++ [AiEvent.pace] }

/-- Failures of the engine: the terminal throw after exhausted rate-limit
retries, a non-429 provider failure rethrown immediately, and the generic
pipeline failure of the outer catch of analyzeUrlContent. -/
inductive AiError
  | rateLimitExhausted
  | providerFatal (msg : String)
  | pipelineFailed
deriving DecidableEq, Repr

/-- Retry bound of generateContentWithRetry (const maxRetries = 3). -/
def maxRetries : Nat := 3

/-- Function generateContentWithRetry of the chunking aiService: loop up to
the retry bound; a successful call returns its response; a 429 waits the
RetryInfo delay (default 30 seconds) and retries; any other error is
rethrown immediately; after the bound is exhausted the final error is
thrown. -/
def generateContentWithRetry : Nat → AiState → Prompt → Except AiError String × AiState
  | 0, st, _ => (Except.error AiError.rateLimitExhausted, st)
  | fuel + 1, st, prompt =>
      match doCall st prompt with
      | (CallOutcome.ok r, st1) => (Except.ok r, st1)
      | (CallOutcome.failOther m, st1) =>
          (Except.error (AiError.providerFatal m), st1)
      | (CallOutcome.rateLimit d, st1) =>
          generateContentWithRetry fuel (recordWait st1 (d.getD 30)) prompt

/-- Chunk size of the MapReduce pipeline (tokenLimit = 3000 * 4). -/
def chunkCharLimit : Nat := 3000 * 4

/-- Chunking loop of getSummarizationFromChunks, fuelled for structural
recursion: each iteration takes one chunkCharLimit window and drops it,
consuming at least one character, so the text length bounds the number of
iterations. -/
def splitChunksFuel : Nat → List Char → List (List Char)
  | 0, _ => []
  | _ + 1, [] => []
  | fuel + 1, c :: cs =>
      (c :: cs).take chunkCharLimit :: splitChunksFuel fuel ((c :: cs).drop chunkCharLimit)

/-- Chunking loop of getSummarizationFromChunks: substring windows of
chunkCharLimit characters until the text is exhausted. -/
def splitChunks (cs : List Char) : List (List Char) :=
  splitChunksFuel cs.length cs

/-- Sequential summarization loop over the chunks: one retry-wrapped call
per chunk, in order, each followed by the one-second pacing delay. -/
def summarizeChunks : AiState → List (List Char) → Except AiError (List String) × AiState
  | st, [] => (Except.ok [], st)
  | st, chunk :: rest =>
      match generateContentWithRetry maxRetries st (Prompt.chunkSummary chunk) with
      | (Except.error e, st1) => (Except.error e, st1)
      | (Except.ok resp, st1) =>
          match summarizeChunks (recordPace st1) rest with
          | (Except.error e, st3) => (Except.error e, st3)
          | (Except.ok rs, st3) => (Except.ok (resp :: rs), st3)

/-- Function getSummarizationFromChunks: summarize all chunks sequentially,
join the partial summaries with blank lines, and issue one final reduce
call over the concatenation. -/
def getSummarizationFromChunks (st : AiState) (text : List Char) :
    Except AiError String × AiState :=
  match summarizeChunks st (splitChunks text) with
  | (Except.error e, st1) => (Except.error e, st1)
  | (Except.ok summaries, st1) =>
      generateContentWithRetry maxRetries st1
        (Prompt.reduce (String.intercalate "\n\n" summaries))

/-- Parsed summary JSON: keys summary and tags. -/
structure SummaryTags where
  summary : String
  tags : List String
deriving DecidableEq, Repr

/-- Parsed safety JSON: keys safety_rating and explanation. -/
structure SafetyOut where
  safety_rating : Int
  explanation : String
deriving DecidableEq, Repr

/-- Parsed combined fast-path JSON: keys summary_and_tags, safety,
classification. -/
structure FullResponse where
  summary_and_tags : SummaryTags
  safety : SafetyOut
  classification : Classification
deriving DecidableEq, Repr

/-- JSON.parse of the four response shapes, abstracted (the JSON grammar is
out of scope); a parse failure is the branch that throws in the source. -/
structure Decoders where
  full : String → Option FullResponse
  summaryTags : String → Option SummaryTags
  safetyOut : String → Option SafetyOut
  classificationOut : String → Option Classification

/-- Return shape of analyzeUrlContent: summary, tags,
safety (rating and justification) and classification. -/
structure EngineResult where
  summary : String
  tags : List String
  safety_rating : Int
  justification : String
  classification : Classification
deriving DecidableEq, Repr

/-- Deterministic fallback returned without any capability call when the
scraped text is absent or too short. -/
def fallbackResult : EngineResult :=
  { summary := "Could not extract sufficient text content from this URL.",
    tags := [],
    safety_rating := 3,
    justification := "Unable to analyze content. The page may be an image, a login wall, or a complex application.",
    classification :=
      { category := "Other", confidence := (1 : Rat) / 2,
        reason := "Could not scrape content." } }

/-- Minimum content threshold (text.length < 100). -/
def minContentLength : Nat := 100

/-- Chunking threshold (const characterThreshold = 4000). -/
def characterThreshold : Nat := 4000

/-- Slice bound of the first-chunk safety and classification calls
(text.slice(0, 8000)). -/
def firstChunkSafetySlice : Nat := 8000

/-- Function analyzeUrlContent of the chunking aiService. The scraped text
is the input (the puppeteer fetch is outside the embedding; null becomes
none). Below the minimum threshold the deterministic fallback is returned
with no capability call. At or below the chunking threshold one combined
call produces all three outputs. Above it the MapReduce pipeline produces
summary and tags, and safety and classification are requested over the
first 8000 characters (the two Promise.all calls, linearized in program
order). Every error of the pipeline is caught and rethrown as the one
generic failure. -/
def analyzeUrlContent (dec : Decoders) (st : AiState) (scraped : Option (List Char)) :
    Except AiError EngineResult × AiState :=
  match scraped with
  | none => (Except.ok fallbackResult, st)
  | some text =>
      if text.length < minContentLength then (Except.ok fallbackResult, st)
      else if text.length ≤ characterThreshold then
        match generateContentWithRetry maxRetries st (Prompt.combined text) with
        | (Except.error _, st1) => (Except.error AiError.pipelineFailed, st1)
        | (Except.ok resp, st1) =>
            match dec.full resp with
            | none => (Except.error AiError.pipelineFailed, st1)
            | some fr =>
                (Except.ok { summary := fr.summary_and_tags.summary,
                             tags := fr.summary_and_tags.tags,
                             safety_rating := fr.safety.safety_rating,
                             justification := fr.safety.explanation,
                             classification := fr.classification }, st1)
      else
        match getSummarizationFromChunks st text with
        | (Except.error _, st1) => (Except.error AiError.pipelineFailed, st1)
        | (Except.ok summaryJsonText, st1) =>
            match dec.summaryTags summaryJsonText with
            | none => (Except.error AiError.pipelineFailed, st1)
            | some summaryData =>
                match doCall st1 (Prompt.safety (text.take firstChunkSafetySlice)) with
                | (o1, st2) =>
                    match doCall st2 (Prompt.classify (text.take firstChunkSafetySlice)) with
                    | (o2, st3) =>
                        match o1, o2 with
                        | CallOutcome.ok s, CallOutcome.ok cresp =>
                            match dec.safetyOut s, dec.classificationOut cresp with
                            | some sv, some cv =>
                                (Except.ok { summary := summaryData.summary,
                                             tags := summaryData.tags,
                                             safety_rating := sv.safety_rating,
                                             justification := sv.explanation,
                                             classification := cv }, st3)
                            | _, _ => (Except.error AiError.pipelineFailed, st3)
                        | _, _ => (Except.error AiError.pipelineFailed, st3)

/-- C6: when the scraped text is absent or below the minimum-content
threshold, Analyze returns the deterministic fallback (safety rating 3,
category Other, empty tags) and the engine state is unchanged: no call to
the external capability is made. -/
theorem analyze_below_threshold_fallback_C6 (dec : Decoders) (st : AiState)
    (scraped : Option (List Char))
    (h : scraped = none ∨ ∃ t, scraped = some t ∧ t.length < minContentLength) :
    analyzeUrlContent dec st scraped = (Except.ok fallbackResult, st) ∧
    fallbackResult.safety_rating = 3 ∧
    fallbackResult.classification.category = "Other" ∧
    fallbackResult.tags = [] := by
  refine ⟨?_, rfl, rfl, rfl⟩
  rcases h with h | ⟨t, hst, hlen⟩
  · subst h
    rfl
  · subst hst
    simp only [analyzeUrlContent]
    rw [if_pos hlen]

/-- Witness for C6: a concrete nine-character text takes the fallback path
with zero calls and an empty trace afterwards. -/
theorem analyze_below_threshold_fallback_C6_witness :
    analyzeUrlContent
        { full := fun _ => none, summaryTags := fun _ => none,
          safetyOut := fun _ => none, classificationOut := fun _ => none }
        { oracle := fun _ => CallOutcome.ok "r", calls := 0, trace := [] }
        (some (String.toList "too short")) =
      (Except.ok fallbackResult,
        { oracle := fun _ => CallOutcome.ok "r", calls := 0, trace := [] }) ∧
    fallbackResult.safety_rating = 3 ∧
    fallbackResult.classification.category = "Other" ∧
    fallbackResult.tags = [] :=
  analyze_below_threshold_fallback_C6
    { full := fun _ => none, summaryTags := fun _ => none,
      safetyOut := fun _ => none, classificationOut := fun _ => none }
    { oracle := fun _ => CallOutcome.ok "r", calls := 0, trace := [] }
    (some (String.toList "too short"))
    (Or.inr ⟨String.toList "too short", rfl, by decide⟩)

/-- Helper: the retry loop makes at most fuel calls. -/
theorem generateContentWithRetry_calls_le (fuel : Nat) :
    ∀ (st : AiState) (p : Prompt),
      (generateContentWithRetry fuel st p).2.calls ≤ st.calls + fuel := by
  induction fuel with
  | zero =>
      intro st p
      simp [generateContentWithRetry]
  | succ n ih =>
      intro st p
      cases ho : st.oracle st.calls with
      | ok r =>
          simp [generateContentWithRetry, doCall, ho]
      | rateLimit d =>
          have := ih (recordWait
            { st with calls := st.calls + 1, trace := st.trace ++ [AiEvent.call p] }
            (d.getD 30)) p
          simp only [generateContentWithRetry, doCall, ho] at this ⊢
          simp only [recordWait] at this ⊢
          omega
      | failOther m =>
          simp [generateContentWithRetry, doCall, ho]

/-- C8: rate-limit handling of generateContentWithRetry. At most three
calls are ever issued. A non-rate-limit failure propagates immediately
after a single call with no wait. A rate-limited call records a wait of
the provider-indicated delay, falling back to 30 seconds, and retries with
one unit of budget less. Three successive rate limits exhaust the retries:
exactly three calls and three waits, then the terminal error. -/
theorem retry_policy_C8 (st : AiState) (p : Prompt) :
    ((generateContentWithRetry maxRetries st p).2.calls ≤ st.calls + 3)
    ∧ (∀ m, st.oracle st.calls = CallOutcome.failOther m →
        generateContentWithRetry maxRetries st p =
          (Except.error (AiError.providerFatal m),
           { st with calls := st.calls + 1, trace := st.trace ++ [AiEvent.call p] }))
    ∧ (∀ d, st.oracle st.calls = CallOutcome.rateLimit d →
        generateContentWithRetry maxRetries st p =
          generateContentWithRetry (maxRetries - 1)
            { st with
              calls := st.calls + 1,
              trace := st.trace ++ [AiEvent.call p, AiEvent.wait (d.getD 30)] } p)
    ∧ (∀ d0 d1 d2,
        st.oracle st.calls = CallOutcome.rateLimit d0 →
        st.oracle (st.calls + 1) = CallOutcome.rateLimit d1 →
        st.oracle (st.calls + 2) = CallOutcome.rateLimit d2 →
        generateContentWithRetry maxRetries st p =
          (Except.error AiError.rateLimitExhausted,
           { st with
             calls := st.calls + 3,
             trace := st.trace ++
               [AiEvent.call p, AiEvent.wait (d0.getD 30),
                AiEvent.call p, AiEvent.wait (d1.getD 30),
                AiEvent.call p, AiEvent.wait (d2.getD 30)] })) := by
  refine ⟨generateContentWithRetry_calls_le maxRetries st p, ?_, ?_, ?_⟩
  · intro m hm
    simp [generateContentWithRetry, maxRetries, doCall, hm]
  · intro d hd
    simp [generateContentWithRetry, maxRetries, doCall, recordWait, hd]
  · intro d0 d1 d2 h0 h1 h2
    simp [generateContentWithRetry, maxRetries, doCall, recordWait, h0, h1, h2]

/-- Witness for C8: with an oracle that always rate-limits without a
RetryInfo delay, the retry loop from a fresh state makes three calls, waits
the 30-second default three times, and ends with the terminal error. -/
theorem retry_policy_C8_witness :
    generateContentWithRetry maxRetries
        { oracle := fun _ => CallOutcome.rateLimit none, calls := 0, trace := [] }
        (Prompt.reduce "x") =
      (Except.error AiError.rateLimitExhausted,
       { oracle := fun _ => CallOutcome.rateLimit none, calls := 3,
         trace := [AiEvent.call (Prompt.reduce "x"), AiEvent.wait 30,
           AiEvent.call (Prompt.reduce "x"), AiEvent.wait 30,
           AiEvent.call (Prompt.reduce "x"), AiEvent.wait 30] }) := by
  have h := (retry_policy_C8
      { oracle := fun _ => CallOutcome.rateLimit none, calls := 0, trace := [] }
      (Prompt.reduce "x")).2.2.2 none none none rfl rfl rfl
  simpa using h

/-- Response text of a successful call (placeholder for failures). -/
def okString : CallOutcome → String
  | CallOutcome.ok r => r
  | CallOutcome.rateLimit _ => ""
  | CallOutcome.failOther _ => ""

/-- Oracle under which every capability call succeeds (no throttling). -/
def oracleOk (f : Nat → CallOutcome) : Prop :=
  ∀ n, ∃ r, f n = CallOutcome.ok r

/-- Chunk responses an all-ok oracle yields for n successive calls starting
at call index c0. -/
def expectedSummaries (f : Nat → CallOutcome) (c0 : Nat) : Nat → List String
  | 0 => []
  | n + 1 => okString (f c0) :: expectedSummaries f (c0 + 1) n

/-- Event trace of the sequential chunk phase: for each chunk in order, one
summarization call immediately followed by the pacing delay. -/
def chunkCallTrace (chunks : List (List Char)) : List AiEvent :=
  (chunks.map (fun ch => [AiEvent.call (Prompt.chunkSummary ch), AiEvent.pace])).flatten

/-- Discriminator of final reduce calls in a trace. -/
def isReduceCall : AiEvent → Bool
  | AiEvent.call (Prompt.reduce _) => true
  | _ => false

/-- Helper: under an all-ok oracle the retry wrapper is a single call. -/
theorem generateContentWithRetry_ok (st : AiState) (p : Prompt)
    (hok : oracleOk st.oracle) :
    generateContentWithRetry maxRetries st p =
      (Except.ok (okString (st.oracle st.calls)),
       { st with calls := st.calls + 1, trace := st.trace ++ [AiEvent.call p] }) := by
  obtain ⟨r, hr⟩ := hok st.calls
  simp [generateContentWithRetry, maxRetries, doCall, hr, okString]

/-- Helper: under an all-ok oracle the chunk loop performs one call and one
pacing delay per chunk, strictly in chunk order, and returns the chunk
responses in order. -/
theorem summarizeChunks_ok (chunks : List (List Char)) :
    ∀ (st : AiState), oracleOk st.oracle →
      summarizeChunks st chunks =
        (Except.ok (expectedSummaries st.oracle st.calls chunks.length),
         { st with
           calls := st.calls + chunks.length,
           trace := st.trace ++ chunkCallTrace chunks }) := by
  induction chunks with
  | nil =>
      intro st hok
      simp [summarizeChunks, expectedSummaries, chunkCallTrace]
  | cons ch rest ih =>
      intro st hok
      simp only [summarizeChunks]
      rw [generateContentWithRetry_ok st (Prompt.chunkSummary ch) hok]
      dsimp only
      rw [ih (recordPace
        { st with calls := st.calls + 1, trace := st.trace ++ [AiEvent.call (Prompt.chunkSummary ch)] }) hok]
      simp [recordPace, expectedSummaries, chunkCallTrace, List.append_assoc]
      omega

/-- Helper: under an all-ok oracle the whole MapReduce summarization is the
sequential chunk phase followed by exactly one reduce call whose payload is
the concatenation of the partial summaries. -/
theorem getSummarizationFromChunks_ok (st : AiState) (text : List Char)
    (hok : oracleOk st.oracle) :
    getSummarizationFromChunks st text =
      (Except.ok (okString (st.oracle (st.calls + (splitChunks text).length))),
       { st with
         calls := st.calls + (splitChunks text).length + 1,
         trace := st.trace ++ chunkCallTrace (splitChunks text) ++
           [AiEvent.call (Prompt.reduce (String.intercalate "\n\n"
             (expectedSummaries st.oracle st.calls (splitChunks text).length)))] }) := by
  unfold getSummarizationFromChunks
  rw [summarizeChunks_ok (splitChunks text) st hok]
  dsimp only
  rw [generateContentWithRetry_ok
    { st with
      calls := st.calls + (splitChunks text).length,
      trace := st.trace ++ chunkCallTrace (splitChunks text) }
    (Prompt.reduce (String.intercalate "\n\n"
      (expectedSummaries st.oracle st.calls (splitChunks text).length))) hok]

/-- Helper: the chunk phase contains no reduce call. -/
theorem chunkCallTrace_no_reduce (chunks : List (List Char)) :
    (chunkCallTrace chunks).filter isReduceCall = [] := by
  induction chunks with
  | nil => rfl
  | cons ch rest ih =>
      simp only [chunkCallTrace, List.map_cons, List.flatten_cons, List.filter_append]
      simp only [chunkCallTrace] at ih
      rw [ih]
      rfl

/-- Helper: the fuel argument is irrelevant once it bounds the length. -/
theorem splitChunksFuel_congr : ∀ (f1 f2 : Nat) (cs : List Char),
    cs.length ≤ f1 → cs.length ≤ f2 → splitChunksFuel f1 cs = splitChunksFuel f2 cs := by
  intro f1
  induction f1 with
  | zero =>
      intro f2 cs h1 h2
      have : cs = [] := List.length_eq_zero.mp (Nat.le_zero.mp h1)
      subst this
      cases f2 with
      | zero => rfl
      | succ g => rfl
  | succ n ih =>
      intro f2 cs h1 h2
      cases cs with
      | nil =>
          cases f2 with
          | zero => rfl
          | succ g => rfl
      | cons c cs =>
          cases f2 with
          | zero => simp at h2
          | succ g =>
              simp only [splitChunksFuel]
              congr 1
              apply ih
              · simp only [List.length_drop, List.length_cons, chunkCharLimit]
                simp only [List.length_cons] at h1
                omega
              · simp only [List.length_drop, List.length_cons, chunkCharLimit]
                simp only [List.length_cons] at h2
                omega

/-- Helper: unfolding of the chunking loop on a nonempty text. -/
theorem splitChunks_cons (c : Char) (cs : List Char) :
    splitChunks (c :: cs) =
      (c :: cs).take chunkCharLimit :: splitChunks ((c :: cs).drop chunkCharLimit) := by
  show splitChunksFuel (c :: cs).length (c :: cs) = _
  simp only [List.length_cons, splitChunksFuel]
  congr 1
  apply splitChunksFuel_congr
  · simp only [List.length_drop, List.length_cons, chunkCharLimit]
    omega
  · exact Nat.le_refl _

/-- C7: for text above the chunking threshold, a successful Analyze run
produces exactly the sequential chunk phase (one summarization call per
chunk, in chunk order, each followed by the pacing delay), then exactly one
reduce call over the concatenated partial summaries, then the safety and
classification calls whose input is the 8000-character slice, a prefix of
the first chunk. -/
theorem analyze_long_path_chunked_C7 (dec : Decoders) (st : AiState)
    (text : List Char) (r : EngineResult) (st3 : AiState)
    (hlen : characterThreshold < text.length) (hok : oracleOk st.oracle)
    (hrun : analyzeUrlContent dec st (some text) = (Except.ok r, st3)) :
    st3.trace = st.trace ++ chunkCallTrace (splitChunks text) ++
      [AiEvent.call (Prompt.reduce (String.intercalate "\n\n"
        (expectedSummaries st.oracle st.calls (splitChunks text).length)))] ++
      [AiEvent.call (Prompt.safety (text.take firstChunkSafetySlice)),
       AiEvent.call (Prompt.classify (text.take firstChunkSafetySlice))] ∧
    (chunkCallTrace (splitChunks text)).filter isReduceCall = [] ∧
    ([AiEvent.call (Prompt.reduce (String.intercalate "\n\n"
        (expectedSummaries st.oracle st.calls (splitChunks text).length)))].filter
      isReduceCall).length = 1 ∧
    (splitChunks text).head? = some (text.take chunkCharLimit) ∧
    text.take firstChunkSafetySlice = (text.take chunkCharLimit).take firstChunkSafetySlice := by
  have h100 : ¬ (text.length < minContentLength) := by
    simp only [minContentLength]
    simp only [characterThreshold] at hlen
    omega
  have h4000 : ¬ (text.length ≤ characterThreshold) := by omega
  refine ⟨?_, chunkCallTrace_no_reduce (splitChunks text), by simp [isReduceCall], ?_, ?_⟩
  · simp only [analyzeUrlContent] at hrun
    rw [if_neg h100, if_neg h4000] at hrun
    rw [getSummarizationFromChunks_ok st text hok] at hrun
    dsimp only at hrun
    cases hdec : dec.summaryTags
        (okString (st.oracle (st.calls + (splitChunks text).length))) with
    | none =>
        rw [hdec] at hrun
        simp at hrun
    | some sd =>
        rw [hdec] at hrun
        simp only [doCall] at hrun
        obtain ⟨r1, hr1⟩ := hok (st.calls + (splitChunks text).length + 1)
        obtain ⟨r2, hr2⟩ := hok (st.calls + (splitChunks text).length + 1 + 1)
        rw [hr1, hr2] at hrun
        dsimp only at hrun
        cases hs : dec.safetyOut r1 with
        | none =>
            rw [hs] at hrun
            simp at hrun
        | some sv =>
            rw [hs] at hrun
            cases hc : dec.classificationOut r2 with
            | none =>
                rw [hc] at hrun
                simp at hrun
            | some cv =>
                rw [hc] at hrun
                have hst3 := (Prod.mk.injEq _ _ _ _).mp hrun
                rw [← hst3.2]
                simp [List.append_assoc]
  · cases htext : text with
    | nil =>
        subst htext
        simp [characterThreshold] at hlen
    | cons c cs =>
        rw [splitChunks_cons]
        rfl
  · rw [List.take_take]
    norm_num [firstChunkSafetySlice, chunkCharLimit]

/-- Sample text one character above the chunking threshold. -/
def sampleLongText : List Char := List.replicate 4001 'a'

/-- Sample fresh engine state whose oracle always answers with r. -/
def sampleAiState : AiState :=
  { oracle := fun _ => CallOutcome.ok "r", calls := 0, trace := [] }

/-- Decoders that parse every response successfully. -/
def sampleOkDecoders : Decoders :=
  { full := fun _ => none,
    summaryTags := fun _ => some { summary := "s", tags := [] },
    safetyOut := fun _ => some { safety_rating := 5, explanation := "fine" },
    classificationOut := fun _ =>
      some { category := "Other", confidence := 0, reason := "c" } }

/-- Result of the sample long-path run. -/
def sampleLongResult : EngineResult :=
  { summary := "s", tags := [], safety_rating := 5, justification := "fine",
    classification := { category := "Other", confidence := 0, reason := "c" } }

/-- Final engine state of the sample long-path run: one chunk call with its
pacing delay, one reduce call, then the safety and classification calls. -/
def sampleLongFinalState : AiState :=
  { oracle := fun _ => CallOutcome.ok "r", calls := 4,
    trace := [AiEvent.call (Prompt.chunkSummary sampleLongText), AiEvent.pace,
      AiEvent.call (Prompt.reduce "r"),
      AiEvent.call (Prompt.safety sampleLongText),
      AiEvent.call (Prompt.classify sampleLongText)] }

/-- Helper: the sample text has 4001 characters. -/
theorem sampleLongText_length : sampleLongText.length = 4001 :=
  List.length_replicate 4001 'a'

/-- Helper: the sample text forms a single chunk. -/
theorem sampleLongText_split : splitChunks sampleLongText = [sampleLongText] := by
  have hcons : sampleLongText = 'a' :: List.replicate 4000 'a' := rfl
  rw [hcons, splitChunks_cons, ← hcons]
  have htake : sampleLongText.take chunkCharLimit = sampleLongText := by
    apply List.take_of_length_le
    rw [sampleLongText_length]
    norm_num [chunkCharLimit]
  have hdrop : sampleLongText.drop chunkCharLimit = [] := by
    apply List.drop_eq_nil_of_le
    rw [sampleLongText_length]
    norm_num [chunkCharLimit]
  rw [htake, hdrop]
  rfl

/-- Helper: the sample text is shorter than the safety slice bound. -/
theorem sampleLongText_take_slice :
    sampleLongText.take firstChunkSafetySlice = sampleLongText := by
  apply List.take_of_length_le
  rw [sampleLongText_length]
  norm_num [firstChunkSafetySlice]

/-- Helper: the sample long-path run evaluates to the sample result and
final state. -/
theorem sampleLongRun_eq :
    analyzeUrlContent sampleOkDecoders sampleAiState (some sampleLongText) =
      (Except.ok sampleLongResult, sampleLongFinalState) := by
  obtain ⟨t, ht, hlen⟩ : ∃ t, sampleLongText = t ∧ t.length = 4001 :=
    ⟨sampleLongText, rfl, sampleLongText_length⟩
  rw [ht]
  have h100 : ¬ (t.length < minContentLength) := by
    rw [hlen]
    decide
  have h4000 : ¬ (t.length ≤ characterThreshold) := by
    rw [hlen]
    decide
  have hok : oracleOk sampleAiState.oracle := fun n => ⟨"r", rfl⟩
  have hsplit : splitChunks t = [t] := by
    rw [← ht]
    exact sampleLongText_split
  have hslice : t.take firstChunkSafetySlice = t := by
    rw [← ht]
    exact sampleLongText_take_slice
  simp only [analyzeUrlContent]
  rw [if_neg h100, if_neg h4000]
  rw [getSummarizationFromChunks_ok sampleAiState t hok]
  dsimp only
  rw [hsplit]
  simp only [List.length_cons, List.length_nil, doCall, sampleOkDecoders,
    expectedSummaries, okString, sampleAiState, chunkCallTrace, List.map_cons,
    List.map_nil, List.flatten_cons, List.flatten_nil]
  rw [hslice]
  simp [sampleLongResult, sampleLongFinalState, String.intercalate, ht]
  rfl

/-- Witness for C7: the concrete 4001-character run exhibits exactly the
chunk call with pacing, the single reduce call, and the first-chunk safety
and classification calls. -/
theorem analyze_long_path_chunked_C7_witness :
    sampleLongFinalState.trace = sampleAiState.trace ++
      chunkCallTrace (splitChunks sampleLongText) ++
      [AiEvent.call (Prompt.reduce (String.intercalate "\n\n"
        (expectedSummaries sampleAiState.oracle sampleAiState.calls
          (splitChunks sampleLongText).length)))] ++
      [AiEvent.call (Prompt.safety (sampleLongText.take firstChunkSafetySlice)),
       AiEvent.call (Prompt.classify (sampleLongText.take firstChunkSafetySlice))] ∧
    (chunkCallTrace (splitChunks sampleLongText)).filter isReduceCall = [] ∧
    ([AiEvent.call (Prompt.reduce (String.intercalate "\n\n"
        (expectedSummaries sampleAiState.oracle sampleAiState.calls
          (splitChunks sampleLongText).length)))].filter isReduceCall).length = 1 ∧
    (splitChunks sampleLongText).head? = some (sampleLongText.take chunkCharLimit) ∧
    sampleLongText.take firstChunkSafetySlice =
      (sampleLongText.take chunkCharLimit).take firstChunkSafetySlice :=
  analyze_long_path_chunked_C7 sampleOkDecoders sampleAiState sampleLongText
    sampleLongResult sampleLongFinalState
    (by rw [sampleLongText_length]; decide)
    (fun n => ⟨"r", rfl⟩)
    sampleLongRun_eq

end Linkly
